import Mathlib

/-!
Verification of the time-series transformation engine of the
financemonitor repository (`src/utils/dataProcessor.ts`, re-exported in the
repository sources as part of `src/src/utils/safe-env.ts`).

The engine is shallowly embedded:

* Calendar dates are `YMD` triples (year, month, day).  All code paths in the
  source treat a date string either by parsing it with `new Date` and reading
  `getFullYear`/`getMonth`/`getDate`, or by lexicographic comparison of a
  canonical `YYYY-MM-DD` string; both are faithfully represented by the triple
  together with the numeric key `dateKey` (comparison of `Date.getTime()` of
  UTC-midnight dates, and of canonical date strings, both coincide with
  `dateKey` order).  `getMonth` is 0-indexed in JS; the embedding keeps months
  1-indexed throughout, which is a consistent relabeling of the `(month, day)`
  lookup keys.
* JS numbers are modeled as `ℚ`; every arithmetic operation the engine
  performs on present values (`+`, `-`, `*`, `/` by a guarded non-zero
  divisor) is exact, except `Math.log`, which is modeled by an uninterpreted
  parameter `logF : ℚ → ℚ` (no claim depends on its values, only on where it
  is or is not applied).
* `null` values become `Option ℚ` (`none` = absent).
* The insertion-ordered `Map` used for grouping becomes an insertion-ordered
  association list (`groupByKey`), and the `(month, day)` lookup `Map` of the
  year-over-year transform becomes a left fold of function updates
  (`dateMapLookup`): both preserve the source's last-write-wins and
  insertion-order semantics.
* `Array.prototype.sort` with comparator `(a, b) => timeA - timeB` is a
  stable sort by `dateKey`; it is modeled by `List.insertionSort`, which is
  stable.
* `observations.slice(-limit)` becomes `jsSliceLast`.
-/

namespace FinanceMonitor

/-- A calendar date at day precision, as carried by an observation's
`YYYY-MM-DD` date string. -/
structure YMD where
  year : Nat
  month : Nat
  day : Nat
deriving DecidableEq, Repr

/-- Numeric key giving the chronological order of dates: both
`Date.getTime()` comparison and lexicographic comparison of canonical
`YYYY-MM-DD` strings order dates exactly by this key. -/
def dateKey (d : YMD) : Nat :=
  d.year * 10000 + d.month * 100 + d.day

/-- `Observation` from `src/types/index.ts`: a single time-series point. -/
structure Observation where
  date : YMD
  value : Option ℚ
  status : Option String := none
deriving DecidableEq, Repr

/-- `FredSeries` from `src/types/index.ts`. -/
structure FredSeries where
  id : String := ""
  title : String := ""
  units : String := ""
  frequency : String := ""
  frequency_short : String := ""
  seasonal_adjustment : String := ""
  seasonal_adjustment_short : String := ""
  last_updated : String := ""
  notes : String := ""
  observations : List Observation := []
  transformation : Option String := none
deriving DecidableEq, Repr

/-- `SeriesDataParams` from `src/types/index.ts`: the request descriptor.
Note that it has no aggregation-method field. -/
structure SeriesDataParams where
  frequency : Option String := none
  units : Option String := none
  transformation : Option String := none
  start_date : Option YMD := none
  end_date : Option YMD := none
  limit : Option Int := none
  sort_order : Option String := none
deriving DecidableEq, Repr

/-- `Array.prototype.map((x, index) => ...)`: map with the element index. -/
def mapWithIndex {α β : Type} (f : Nat → α → β) : List α → List β
  | [] => []
  | a :: l => f 0 a :: mapWithIndex (fun i => f (i + 1)) l

/-- The value of `observations[index].value` read through a possibly
out-of-range index (in the source every such read is in range). -/
def valueAt (observations : List Observation) (index : Nat) : Option ℚ :=
  match observations[index]? with
  | some o => o.value
  | none => none

/-- `calculatePercentageChange` (dataProcessor.ts lines 306-321):
period-over-period percent change.  `out[0]` is null; a null or zero previous
value gives null; otherwise `((value ?? 0) - prev) / prev * 100`. -/
def calculatePercentageChange (observations : List Observation) : List Observation :=
  mapWithIndex (fun index obs =>
    if index = 0 then { obs with value := none }
    else
      match valueAt observations (index - 1) with
      | none => { obs with value := none }
      | some p =>
        if p = 0 then { obs with value := none }
        else { obs with value := some ((obs.value.getD 0 - p) / p * 100) }) observations

/-- Gregorian leap-year test, as implemented by JS `Date` normalization. -/
def isLeapYear (y : Nat) : Bool :=
  y % 4 = 0 && (y % 100 ≠ 0 || y % 400 = 0)

/-- `date.setFullYear(date.getFullYear() - 1)`: the same month/day one year
earlier, except that Feb 29 in a non-leap target year normalizes to Mar 1
(JS `Date` rollover). -/
def rollbackYear (d : YMD) : YMD :=
  let y := d.year - 1
  if d.month = 2 && d.day = 29 && !isLeapYear y then ⟨y, 3, 1⟩
  else ⟨y, d.month, d.day⟩

/-- The `(month, day)` lookup key `` `${date.getMonth()}-${date.getDate()}` ``
(month kept 1-indexed in the embedding). -/
def mdKey (d : YMD) : Nat × Nat := (d.month, d.day)

/-- The `dateMap` of `calculateYoYPercentageChange`: a single forward pass
inserting `(obs.date, obs.value)` under `mdKey obs.date`, later entries
overwriting earlier ones. -/
def dateMapLookup (observations : List Observation) : Nat × Nat → Option (YMD × Option ℚ) :=
  observations.foldl
    (fun m obs k => if k = mdKey obs.date then some (obs.date, obs.value) else m k)
    (fun _ => none)

/-- `calculateYoYPercentageChange` (dataProcessor.ts lines 328-352):
year-over-year percent change keyed by `(month, day)` only. -/
def calculateYoYPercentageChange (observations : List Observation) : List Observation :=
  let dateMap := dateMapLookup observations
  observations.map (fun obs =>
    let prevYearKey := mdKey (rollbackYear obs.date)
    match dateMap prevYearKey with
    | none => { obs with value := none }
    | some (_, none) => { obs with value := none }
    | some (_, some m) =>
      if m = 0 then { obs with value := none }
      else { obs with value := some ((obs.value.getD 0 - m) / m * 100) })

/-- `calculateDifference` (dataProcessor.ts lines 359-374). -/
def calculateDifference (observations : List Observation) : List Observation :=
  mapWithIndex (fun index obs =>
    if index = 0 then { obs with value := none }
    else
      match valueAt observations (index - 1), obs.value with
      | none, _ => { obs with value := none }
      | _, none => { obs with value := none }
      | some p, some v => { obs with value := some (v - p) }) observations

/-- `calculateLogTransform` (dataProcessor.ts lines 381-389); `Math.log` is
the uninterpreted parameter `logF`. -/
def calculateLogTransform (logF : ℚ → ℚ) (observations : List Observation) : List Observation :=
  observations.map (fun obs =>
    match obs.value with
    | none => { obs with value := none }
    | some v => if v ≤ 0 then { obs with value := none } else { obs with value := some (logF v) })

/-- The loop of `calculateMovingAverage`: the window values
`observations[index - i].value` for `i = 0 .. periods-1`, present ones only,
in the loop's own (descending-index) order. -/
def windowValues (observations : List Observation) (index periods : Nat) : List ℚ :=
  ((List.range periods).map (fun i => valueAt observations (index - i))).filterMap id

/-- `calculateMovingAverage` (dataProcessor.ts lines 397-423). -/
def calculateMovingAverage (observations : List Observation) (periods : Nat) : List Observation :=
  mapWithIndex (fun index obs =>
    if index < periods - 1 then { obs with value := none }
    else
      let valid := windowValues observations index periods
      if valid = [] then { obs with value := none }
      else { obs with value := some (valid.sum / valid.length) }) observations

/-- `calculateCumulativeSum` (dataProcessor.ts lines 430-441). -/
def calculateCumulativeSum (observations : List Observation) : List Observation :=
  (observations.foldl
    (fun (acc : ℚ × List Observation) obs =>
      match obs.value with
      | none => (acc.1, acc.2 ++ [obs])
      | some v => (acc.1 + v, acc.2 ++ [{ obs with value := some (acc.1 + v) }]))
    (0, [])).2

/-- `normalizeValues` (dataProcessor.ts lines 448-477). -/
def normalizeValues (observations : List Observation) : List Observation :=
  match observations.filterMap (fun o => o.value) with
  | [] => observations
  | v :: vs =>
    let mn := vs.foldl min v
    let mx := vs.foldl max v
    if mn = mx then
      observations.map (fun obs =>
        { obs with value := if obs.value ≠ none then some 1 else none })
    else
      observations.map (fun obs =>
        match obs.value with
        | none => obs
        | some x => { obs with value := some ((x - mn) / (mx - mn)) })

/-- `filterByDateRange` (dataProcessor.ts lines 486-502): inclusive bounds,
excluding dates strictly before `startDate` or strictly after `endDate`. -/
def filterByDateRange (observations : List Observation)
    (startDate endDate : Option YMD) : List Observation :=
  observations.filter (fun obs =>
    (match startDate with
     | some s => decide (¬ dateKey obs.date < dateKey s)
     | none => true)
    && (match endDate with
        | some e => decide (¬ dateKey e < dateKey obs.date)
        | none => true))

/-- Aggregation method of the resampler ('first' | 'last' | 'avg' | 'sum'). -/
inductive AggMethod
  | first | last | avg | sum
deriving DecidableEq, Repr

/-- Chronological (non-strict) order on observations, the order computed by
the comparator `(a, b) => new Date(a.date).getTime() - new Date(b.date).getTime()`. -/
def obsDateLe (a b : Observation) : Prop := dateKey a.date ≤ dateKey b.date

instance : DecidableRel obsDateLe := fun x y => Nat.decLe (dateKey x.date) (dateKey y.date)

instance : IsTotal Observation obsDateLe := ⟨fun x y => Nat.le_total (dateKey x.date) (dateKey y.date)⟩

instance : IsTrans Observation obsDateLe := ⟨fun _ _ _ h1 h2 => Nat.le_trans h1 h2⟩

/-- Strict chronological order on observations. -/
def obsDateLt (a b : Observation) : Prop := dateKey a.date < dateKey b.date

instance : DecidableRel obsDateLt := fun x y => Nat.decLt (dateKey x.date) (dateKey y.date)

/-- `arr.sort((a, b) => dateA - dateB)`: a stable sort by date. -/
def sortByDate (l : List Observation) : List Observation :=
  l.insertionSort obsDateLe

/-- Insert an observation into the insertion-ordered group list under key
`k`, appending to the existing entry for `k` if present, else pushing a new
entry at the end (the behavior of `Map.get(k)?.push(obs)` after
`Map.set(k, [])` on a missing key). -/
def insertGrouped {κ : Type} [DecidableEq κ] :
    List (κ × List Observation) → κ → Observation → List (κ × List Observation)
  | [], k, obs => [(k, [obs])]
  | (k1, l) :: rest, k, obs =>
    if k = k1 then (k1, l ++ [obs]) :: rest
    else (k1, l) :: insertGrouped rest k obs

/-- The grouping loop `observations.forEach(obs => ...Map...push(obs))`:
an insertion-ordered map from bucket key to the bucket's observations in
input order. -/
def groupByKey {κ : Type} [DecidableEq κ] (key : Observation → κ)
    (observations : List Observation) : List (κ × List Observation) :=
  observations.foldl (fun acc obs => insertGrouped acc (key obs) obs) []

/-- Placeholder observation for the (unreachable) reduction of an empty
bucket: every bucket produced by `groupByKey` is non-empty. -/
def defaultObs : Observation := { date := ⟨0, 0, 0⟩, value := none, status := none }

/-- Reduce one bucket per the aggregation method (the switch shared verbatim
by `aggregateToMonthly` and `aggregateGroupedData`, dataProcessor.ts lines
637-678 and 812-853): sort the bucket by date, then take the
first/last/avg/sum; the representative date is the first observation's date
for 'first' and the last observation's date otherwise.  The pushed result
`{ date, value }` carries no status. -/
def reduceBucket (method : AggMethod) (bucket : List Observation) : Observation :=
  let sorted := sortByDate bucket
  match method with
  | .first =>
    { date := (sorted.headD defaultObs).date,
      value := (sorted.headD defaultObs).value, status := none }
  | .last =>
    { date := (sorted.getLastD defaultObs).date,
      value := (sorted.getLastD defaultObs).value, status := none }
  | .avg =>
    let valid := sorted.filterMap (fun o => o.value)
    { date := (sorted.getLastD defaultObs).date,
      value := if valid = [] then none else some (valid.sum / valid.length),
      status := none }
  | .sum =>
    { date := (sorted.getLastD defaultObs).date,
      value := some (sorted.filterMap (fun o => o.value)).sum, status := none }

/-- `aggregateGroupedData` (dataProcessor.ts lines 806-859): reduce every
bucket in insertion order, then sort the results by date. -/
def aggregateGroupedData {κ : Type} (groupedData : List (κ × List Observation))
    (method : AggMethod) : List Observation :=
  sortByDate (groupedData.map (fun g => reduceBucket method g.2))

/-- Year-month bucket key `` `${getFullYear()}-${getMonth() + 1}` ``. -/
def ymKey (d : YMD) : Nat × Nat := (d.year, d.month)

/-- Year-quarter bucket key `` `${getFullYear()}-Q${floor(getMonth()/3) + 1}` ``. -/
def yqKey (d : YMD) : Nat × Nat := (d.year, (d.month - 1) / 3 + 1)

/-- Year bucket key `getFullYear().toString()`. -/
def yKey (d : YMD) : Nat := d.year

/-- `aggregateToMonthly` (dataProcessor.ts lines 616-684); its inline
reduction/sort body is character-identical to `aggregateGroupedData`. -/
def aggregateToMonthly (observations : List Observation) (method : AggMethod) :
    List Observation :=
  aggregateGroupedData (groupByKey (fun o => ymKey o.date) observations) method

/-- `aggregateToQuarterly` (dataProcessor.ts lines 692-713). -/
def aggregateToQuarterly (observations : List Observation) (method : AggMethod) :
    List Observation :=
  aggregateGroupedData (groupByKey (fun o => yqKey o.date) observations) method

/-- `aggregateMonthlyToQuarterly` (dataProcessor.ts lines 721-742). -/
def aggregateMonthlyToQuarterly (observations : List Observation) (method : AggMethod) :
    List Observation :=
  aggregateGroupedData (groupByKey (fun o => yqKey o.date) observations) method

/-- `aggregateMonthlyToAnnual` (dataProcessor.ts lines 750-770). -/
def aggregateMonthlyToAnnual (observations : List Observation) (method : AggMethod) :
    List Observation :=
  aggregateGroupedData (groupByKey (fun o => yKey o.date) observations) method

/-- `aggregateQuarterlyToAnnual` (dataProcessor.ts lines 778-798). -/
def aggregateQuarterlyToAnnual (observations : List Observation) (method : AggMethod) :
    List Observation :=
  aggregateGroupedData (groupByKey (fun o => yKey o.date) observations) method

/-- `transformFrequency` (dataProcessor.ts lines 511-550): dispatch on the
string `` `${sourceFrequency}_to_${targetFrequency}` `` (that concatenation is
injective on the five literal cases, so the dispatch is equality on the
pair); equal source/target or any other pair returns the input unchanged.
Every supported case passes the hard-coded method 'last'. -/
def transformFrequency (observations : List Observation) (targetFrequency : String)
    (sourceFrequency : Option String) : List Observation :=
  if sourceFrequency = some targetFrequency then observations
  else if sourceFrequency = some "D" ∧ targetFrequency = "M" then
    aggregateToMonthly observations .last
  else if sourceFrequency = some "D" ∧ targetFrequency = "Q" then
    aggregateToQuarterly observations .last
  else if sourceFrequency = some "M" ∧ targetFrequency = "Q" then
    aggregateMonthlyToQuarterly observations .last
  else if sourceFrequency = some "M" ∧ targetFrequency = "A" then
    aggregateMonthlyToAnnual observations .last
  else if sourceFrequency = some "Q" ∧ targetFrequency = "A" then
    aggregateQuarterlyToAnnual observations .last
  else observations

/-- `transformUnits` (dataProcessor.ts lines 559-608): dispatch on
`` `${sourceUnits}_to_${targetUnits}` `` (again injective on the five literal
cases); equal units or any other pair returns the input unchanged; each
supported case rescales present values pointwise and keeps null null. -/
def transformUnits (observations : List Observation) (sourceUnits targetUnits : String) :
    List Observation :=
  if targetUnits = sourceUnits then observations
  else if sourceUnits = "Billions of Dollars" ∧ targetUnits = "Millions of Dollars" then
    observations.map (fun obs => { obs with value := obs.value.map (fun v => v * 1000) })
  else if sourceUnits = "Millions of Dollars" ∧ targetUnits = "Billions of Dollars" then
    observations.map (fun obs => { obs with value := obs.value.map (fun v => v / 1000) })
  else if sourceUnits = "Thousands" ∧ targetUnits = "Millions" then
    observations.map (fun obs => { obs with value := obs.value.map (fun v => v / 1000) })
  else if sourceUnits = "Percent" ∧ targetUnits = "Decimal" then
    observations.map (fun obs => { obs with value := obs.value.map (fun v => v / 100) })
  else if sourceUnits = "Decimal" ∧ targetUnits = "Percent" then
    observations.map (fun obs => { obs with value := obs.value.map (fun v => v * 100) })
  else observations

/-- `applyTransformation` (dataProcessor.ts lines 262-299). -/
def applyTransformation (logF : ℚ → ℚ) (observations : List Observation)
    (transformation : String) : List Observation :=
  if transformation = "pct_change" then calculatePercentageChange observations
  else if transformation = "pct_change_yoy" then calculateYoYPercentageChange observations
  else if transformation = "diff" then calculateDifference observations
  else if transformation = "log" then calculateLogTransform logF observations
  else if transformation = "moving_avg" then calculateMovingAverage observations 3
  else if transformation = "3_period_moving_avg" then calculateMovingAverage observations 3
  else if transformation = "6_period_moving_avg" then calculateMovingAverage observations 6
  else if transformation = "12_period_moving_avg" then calculateMovingAverage observations 12
  else if transformation = "4_week_moving_avg" then calculateMovingAverage observations 4
  else if transformation = "cumulative_sum" then calculateCumulativeSum observations
  else if transformation = "normalize" then normalizeValues observations
  else observations

/-- `observations.slice(-limit)` for a positive limit: the last `n`
observations (the whole list when `n` exceeds its length). -/
def jsSliceLast {α : Type} (l : List α) (n : Nat) : List α :=
  l.drop (l.length - n)

/-- `processTimeSeriesData` (dataProcessor.ts lines 203-254): the pipeline.
The JSON round-trip deep copy is the identity on the pure value model. -/
def processTimeSeriesData (logF : ℚ → ℚ) (data : FredSeries)
    (params : SeriesDataParams) : FredSeries :=
  if data.observations = [] then { data with observations := [] }
  else
    let observations := data.observations
    let observations := match params.frequency with
      | some f => transformFrequency observations f (some data.frequency_short)
      | none => observations
    let observations := match params.units with
      | some u => transformUnits observations data.units u
      | none => observations
    let observations := match params.transformation with
      | some t => applyTransformation logF observations t
      | none => observations
    let observations := if params.start_date.isSome || params.end_date.isSome then
        filterByDateRange observations params.start_date params.end_date
      else observations
    let observations := match params.limit with
      | some n => if 0 < n then jsSliceLast observations n.toNat else observations
      | none => observations
    { data with
      observations := observations
      transformation := match params.transformation with
        | some t => some t
        | none => data.transformation
      frequency := match params.frequency with
        | some f => f
        | none => data.frequency
      units := match params.units with
        | some u => u
        | none => data.units }

/-! ### Stage combinators, spec-side definitions and concrete fixtures -/

/-- The resample stage as conditionally invoked by the pipeline
(`if (params.frequency) observations = transformFrequency(...)`). -/
def freqStage (frequencyShort : String) (freq : Option String)
    (obs : List Observation) : List Observation :=
  match freq with
  | some f => transformFrequency obs f (some frequencyShort)
  | none => obs

/-- The unit-conversion stage as conditionally invoked by the pipeline. -/
def unitsStage (sourceUnits : String) (units : Option String)
    (obs : List Observation) : List Observation :=
  match units with
  | some u => transformUnits obs sourceUnits u
  | none => obs

/-- The point-transform stage as conditionally invoked by the pipeline. -/
def transformStage (logF : ℚ → ℚ) (transformation : Option String)
    (obs : List Observation) : List Observation :=
  match transformation with
  | some t => applyTransformation logF obs t
  | none => obs

/-- The date-range filter stage as conditionally invoked by the pipeline
(run when either bound is set). -/
def filterStage (startDate endDate : Option YMD) (obs : List Observation) :
    List Observation :=
  if startDate.isSome || endDate.isSome then filterByDateRange obs startDate endDate
  else obs

/-- The limit stage as conditionally invoked by the pipeline (run when the
limit is set and positive). -/
def limitStage (limit : Option Int) (obs : List Observation) : List Observation :=
  match limit with
  | some n => if 0 < n then jsSliceLast obs n.toNat else obs
  | none => obs

/-- The whitelist of supported frequency conversions, as the spec enumerates
it (day→month, day→quarter, month→quarter, month→year, quarter→year). -/
def supportedFreqPairs : List (String × String) :=
  [("D", "M"), ("D", "Q"), ("M", "Q"), ("M", "A"), ("Q", "A")]

/-- The fixed lookup of supported unit conversions. -/
def supportedUnitPairs : List (String × String) :=
  [("Billions of Dollars", "Millions of Dollars"),
   ("Millions of Dollars", "Billions of Dollars"),
   ("Thousands", "Millions"),
   ("Percent", "Decimal"),
   ("Decimal", "Percent")]

/-- The moving-average window stated the way the spec states it: the values
at indices `i-p+1 .. i` in ascending index order, present ones only. -/
def movingAvgWindow (observations : List Observation) (p i : Nat) : List ℚ :=
  ((List.range p).map (fun k => valueAt observations (i + 1 - p + k))).filterMap id

/-- The moving-average output value stated the way the spec states it:
absent when `i < p-1`, else the mean of the present values among
`in[i-p+1..i]`, absent when that window holds no present value. -/
def movingAvgSpecValue (observations : List Observation) (p i : Nat) : Option ℚ :=
  if i < p - 1 then none
  else if movingAvgWindow observations p i = [] then none
  else some ((movingAvgWindow observations p i).sum / (movingAvgWindow observations p i).length)

/-- A bucket's representative under the spec's 'last' reduction: the
bucket-final observation's own value and date (no synthetic period boundary),
status dropped as in the source's `result.push({ date, value })`. -/
def lastOfBucket (bucket : List Observation) : Observation :=
  { date := (bucket.getLastD defaultObs).date,
    value := (bucket.getLastD defaultObs).value, status := none }

/-- Daily→monthly resampling with method 'last' stated the way the spec
states it: partition by `(year, month)` in first-appearance order, keeping
each bucket's internal input order, and reduce each bucket to its last
observation's value and date. -/
def monthlyLastSpec (observations : List Observation) : List Observation :=
  (groupByKey (fun o => ymKey o.date) observations).map (fun g => lastOfBucket g.2)

/-- Fixture date in 2023. -/
def mkDate (m dd : Nat) : YMD := ⟨2023, m, dd⟩

/-- Fixture observation in 2023. -/
def mkObs (m dd : Nat) (v : Option ℚ) : Observation := { date := mkDate m dd, value := v }

/-- Fixture for C1: a present value followed by an absent one. -/
def c1Obs : List Observation := [mkObs 1 1 (some 1), mkObs 1 2 none]

/-- Fixture for C3: four dated points. -/
def c3Obs : List Observation :=
  [mkObs 1 1 (some 1), mkObs 1 2 (some 2), mkObs 1 3 (some 3), mkObs 1 4 (some 4)]

/-- Fixture series for C3. -/
def c3Series : FredSeries := { observations := c3Obs }

/-- Fixture for C4: the spec's `[1, absent, 3, 4]`. -/
def c4Obs : List Observation :=
  [mkObs 1 1 (some 1), mkObs 1 2 none, mkObs 1 3 (some 3), mkObs 1 4 (some 4)]

/-- Fixture for C5: the spec's daily series spanning two months. -/
def c5Obs : List Observation :=
  [mkObs 1 5 (some 1), mkObs 1 20 (some 2), mkObs 2 10 (some 3)]

/-- Fixture series for C6: reported frequency "Daily", short code "D". -/
def c6Series : FredSeries :=
  { frequency := "Daily"
    frequency_short := "D"
    observations := [mkObs 1 1 (some 1)] }

/-- Fixture request for C6: target frequency equal to the series' current
short frequency, so the resample stage performs no conversion. -/
def c6Params : SeriesDataParams := { frequency := some "D" }

/-- Fixture for the year-over-year variant of C1: the first observation is
absent, and a later observation of the following year shares its
`(month, day)` key and is present. -/
def c1YoyObs : List Observation :=
  [{ date := ⟨2023, 3, 15⟩, value := none },
   { date := ⟨2024, 3, 15⟩, value := some 4 }]

/-- Fixture empty series for C10. -/
def c10Series : FredSeries := { frequency := "Daily", units := "Percent" }

/-- Fixture request for C10 with every stage parameter set. -/
def c10Params : SeriesDataParams :=
  { frequency := some "M", units := some "Decimal", transformation := some "diff",
    start_date := some (mkDate 1 1), end_date := some (mkDate 12 31), limit := some 5 }

/-! ### Helper lemmas about the embedding -/

theorem length_mapWithIndex {α β : Type} (f : Nat → α → β) (l : List α) :
    (mapWithIndex f l).length = l.length := by
  induction l generalizing f with
  | nil => rfl
  | cons a t ih => simp [mapWithIndex, ih]

theorem getElem?_mapWithIndex {α β : Type} (f : Nat → α → β) (l : List α) (i : Nat) :
    (mapWithIndex f l)[i]? = (l[i]?).map (f i) := by
  induction l generalizing f i with
  | nil => simp [mapWithIndex]
  | cons a t ih =>
    cases i with
    | zero => simp [mapWithIndex]
    | succ j => simp [mapWithIndex, ih]

/-- A lookup in the year-over-year `dateMap` returns the data of the **last**
observation of the series carrying that `(month, day)` key: later entries of
the single forward building pass silently overwrite earlier ones. -/
theorem dateMapLookup_eq_getLast (observations : List Observation) (k : Nat × Nat) :
    dateMapLookup observations k =
      ((observations.filter (fun o => decide (k = mdKey o.date))).getLast?).map
        (fun o => (o.date, o.value)) := by
  induction observations using List.reverseRecOn with
  | nil => simp [dateMapLookup]
  | append_singleton l a ih =>
    by_cases hk : k = mdKey a.date
    · simp [dateMapLookup, List.foldl_append, hk, List.filter_append, List.getLast?_concat]
    · simp [dateMapLookup, List.foldl_append, hk]
      rw [show (List.foldl
          (fun m obs k => if k = mdKey obs.date then some (obs.date, obs.value) else m k)
          (fun _ => none) l : Nat × Nat → Option (YMD × Option ℚ)) = dateMapLookup l from rfl]
      simp [List.filter_append, hk, ih]

theorem length_calculateCumulativeSum (observations : List Observation) :
    (calculateCumulativeSum observations).length = observations.length := by
  suffices h : ∀ (s : ℚ) (acc : List Observation),
      ((observations.foldl
        (fun (acc : ℚ × List Observation) obs =>
          match obs.value with
          | none => (acc.1, acc.2 ++ [obs])
          | some v => (acc.1 + v, acc.2 ++ [{ obs with value := some (acc.1 + v) }]))
        (s, acc)).2).length = acc.length + observations.length by
    simpa [calculateCumulativeSum] using h 0 []
  induction observations with
  | nil => intro s acc; simp
  | cons obs t ih =>
    intro s acc
    cases hv : obs.value <;> simp [List.foldl_cons, hv, ih] <;> omega

theorem length_normalizeValues (observations : List Observation) :
    (normalizeValues observations).length = observations.length := by
  unfold normalizeValues
  split
  · rfl
  · dsimp only
    split <;> simp

theorem length_calculatePercentageChange (observations : List Observation) :
    (calculatePercentageChange observations).length = observations.length := by
  simp [calculatePercentageChange, length_mapWithIndex]

theorem length_calculateYoYPercentageChange (observations : List Observation) :
    (calculateYoYPercentageChange observations).length = observations.length := by
  simp [calculateYoYPercentageChange]

theorem length_calculateDifference (observations : List Observation) :
    (calculateDifference observations).length = observations.length := by
  simp [calculateDifference, length_mapWithIndex]

theorem length_calculateLogTransform (logF : ℚ → ℚ) (observations : List Observation) :
    (calculateLogTransform logF observations).length = observations.length := by
  simp [calculateLogTransform]

theorem length_calculateMovingAverage (observations : List Observation) (p : Nat) :
    (calculateMovingAverage observations p).length = observations.length := by
  simp [calculateMovingAverage, length_mapWithIndex]

set_option maxHeartbeats 1000000 in
theorem length_applyTransformation (logF : ℚ → ℚ) (observations : List Observation)
    (t : String) :
    (applyTransformation logF observations t).length = observations.length := by
  unfold applyTransformation
  split_ifs <;>
    simp only [length_calculatePercentageChange, length_calculateYoYPercentageChange,
      length_calculateDifference, length_calculateLogTransform,
      length_calculateMovingAverage, length_calculateCumulativeSum, length_normalizeValues]

/-! ### Claim theorems -/

/-- C7: for the frequency resampler, any source/target pair outside the
enumerated whitelist (day→month, day→quarter, month→quarter, month→year,
quarter→year), or source equal to target, returns the observation sequence
unchanged; likewise the unit converter for any pair outside its fixed lookup
or equal units.  Both are total functions of the input: no input raises. -/
theorem unsupported_conversions_are_identity :
    (∀ (observations : List Observation) (tgt : String) (src : Option String),
      (src = some tgt ∨ ∀ s, src = some s → (s, tgt) ∉ supportedFreqPairs) →
      transformFrequency observations tgt src = observations) ∧
    (∀ (observations : List Observation) (su tu : String),
      (tu = su ∨ (su, tu) ∉ supportedUnitPairs) →
      transformUnits observations su tu = observations) := by
  constructor
  · intro observations tgt src h
    by_cases he : src = some tgt
    · simp [transformFrequency, he]
    · rcases h with h | h
      · exact absurd h he
      · unfold transformFrequency
        rw [if_neg he]
        split_ifs with h1 h2 h3 h4 h5
        · exact absurd (show ((("D" : String)), tgt) ∈ supportedFreqPairs by
            simp [supportedFreqPairs, h1.2]) (h _ h1.1)
        · exact absurd (show ((("D" : String)), tgt) ∈ supportedFreqPairs by
            simp [supportedFreqPairs, h2.2]) (h _ h2.1)
        · exact absurd (show ((("M" : String)), tgt) ∈ supportedFreqPairs by
            simp [supportedFreqPairs, h3.2]) (h _ h3.1)
        · exact absurd (show ((("M" : String)), tgt) ∈ supportedFreqPairs by
            simp [supportedFreqPairs, h4.2]) (h _ h4.1)
        · exact absurd (show ((("Q" : String)), tgt) ∈ supportedFreqPairs by
            simp [supportedFreqPairs, h5.2]) (h _ h5.1)
        · rfl
  · intro observations su tu h
    by_cases he : tu = su
    · simp [transformUnits, he]
    · rcases h with h | h
      · exact absurd h he
      · unfold transformUnits
        rw [if_neg he]
        split_ifs with h1 h2 h3 h4 h5
        · exact absurd (show (su, tu) ∈ supportedUnitPairs by
            simp [supportedUnitPairs, h1.1, h1.2]) h
        · exact absurd (show (su, tu) ∈ supportedUnitPairs by
            simp [supportedUnitPairs, h2.1, h2.2]) h
        · exact absurd (show (su, tu) ∈ supportedUnitPairs by
            simp [supportedUnitPairs, h3.1, h3.2]) h
        · exact absurd (show (su, tu) ∈ supportedUnitPairs by
            simp [supportedUnitPairs, h4.1, h4.2]) h
        · exact absurd (show (su, tu) ∈ supportedUnitPairs by
            simp [supportedUnitPairs, h5.1, h5.2]) h
        · rfl

/-- Witness for C7 at a concrete unsupported pair: weekly→monthly resampling
and an unknown unit pair are both passthrough. -/
theorem unsupported_conversions_are_identity_witness :
    (some "W" = some "M" ∨ ∀ s, (some "W" : Option String) = some s →
        (s, "M") ∉ supportedFreqPairs) ∧
    transformFrequency c3Obs "M" (some "W") = c3Obs ∧
    ("Knots" = "Furlongs" ∨ (("Furlongs" : String), ("Knots" : String)) ∉ supportedUnitPairs) ∧
    transformUnits c3Obs "Furlongs" "Knots" = c3Obs := by
  refine ⟨Or.inr ?_, ?_, Or.inr (by decide), ?_⟩
  · intro s hs
    cases hs
    decide
  · exact unsupported_conversions_are_identity.1 c3Obs "M" (some "W")
      (Or.inr (by intro s hs; cases hs; decide))
  · exact unsupported_conversions_are_identity.2 c3Obs "Furlongs" "Knots"
      (Or.inr (by decide))

/-- C9: the frequency resampler invoked through the pipeline always reduces
buckets with the hard-coded method 'last': every result of
`transformFrequency` is either the unchanged input or one of the five
aggregations applied with method 'last'.  (The request type
`SeriesDataParams` carries no aggregation-method field, so no caller of the
pipeline can select 'first', 'avg' or 'sum'.) -/
theorem transformFrequency_always_last_method (observations : List Observation)
    (tgt : String) (src : Option String) :
    transformFrequency observations tgt src = observations ∨
      transformFrequency observations tgt src ∈
        [aggregateToMonthly observations .last,
         aggregateToQuarterly observations .last,
         aggregateMonthlyToQuarterly observations .last,
         aggregateMonthlyToAnnual observations .last,
         aggregateQuarterlyToAnnual observations .last] := by
  unfold transformFrequency
  split_ifs <;> simp

/-- C10: when the input series has an empty observation sequence the
pipeline returns early with `{ ...data, observations: [] }`: every metadata
field (frequency, units, transformation, and all others) equals the input's
even when the corresponding request parameter is set. -/
theorem processTimeSeriesData_empty_input_preserves_metadata (logF : ℚ → ℚ)
    (data : FredSeries) (params : SeriesDataParams) (h : data.observations = []) :
    processTimeSeriesData logF data params = { data with observations := [] } := by
  simp [processTimeSeriesData, h]

/-- Witness for C10: an empty series under a request setting every stage
parameter keeps frequency "Daily" and units "Percent". -/
theorem processTimeSeriesData_empty_input_preserves_metadata_witness :
    c10Series.observations = [] ∧
    processTimeSeriesData (fun q => q) c10Series c10Params =
      { c10Series with observations := [] } :=
  ⟨rfl, processTimeSeriesData_empty_input_preserves_metadata (fun q => q) c10Series c10Params rfl⟩

/-- C6 counterexample: with series frequency "Daily" and short code "D", a
request for frequency "D" makes the resample stage perform no conversion
(the param equals the series' current short frequency, and the observations
are returned unchanged), yet the returned series' frequency field is
overwritten to "D" ≠ "Daily" — refuting "overwritten if and only if the
corresponding stage ran". -/
theorem metadata_overrides_iff_stage_ran_counterexample :
    c6Params.frequency = some c6Series.frequency_short ∧
    (processTimeSeriesData (fun q => q) c6Series c6Params).observations =
      c6Series.observations ∧
    (processTimeSeriesData (fun q => q) c6Series c6Params).frequency ≠
      c6Series.frequency := by
  refine ⟨rfl, ?_, ?_⟩
  · simp [processTimeSeriesData, c6Series, c6Params, transformFrequency]
  · simp [processTimeSeriesData, c6Series, c6Params]

/-- C6 as amended: on the non-empty path the metadata fields are overwritten
if and only if the corresponding request *parameter is set* — the frequency
field is overwritten whenever `request.frequency` is set, even when it
equals the series' current short frequency and the resample performs no
conversion; parameters left unset leave the corresponding field equal to
the input series' field. -/
theorem metadata_overrides_iff_param_set (logF : ℚ → ℚ) (data : FredSeries)
    (params : SeriesDataParams) (h : data.observations ≠ []) :
    (processTimeSeriesData logF data params).frequency =
      (match params.frequency with | some f => f | none => data.frequency) ∧
    (processTimeSeriesData logF data params).units =
      (match params.units with | some u => u | none => data.units) ∧
    (processTimeSeriesData logF data params).transformation =
      (match params.transformation with | some t => some t | none => data.transformation) := by
  simp [processTimeSeriesData, h]

/-- Witness for the amended C6, at the C6 fixture. -/
theorem metadata_overrides_iff_param_set_witness :
    c6Series.observations ≠ [] ∧
    (processTimeSeriesData (fun q => q) c6Series c6Params).frequency = "D" ∧
    (processTimeSeriesData (fun q => q) c6Series c6Params).units = c6Series.units ∧
    (processTimeSeriesData (fun q => q) c6Series c6Params).transformation =
      c6Series.transformation := by
  have h : c6Series.observations ≠ [] := by simp [c6Series]
  exact ⟨h, (metadata_overrides_iff_param_set (fun q => q) c6Series c6Params h).1,
    (metadata_overrides_iff_param_set (fun q => q) c6Series c6Params h).2.1,
    (metadata_overrides_iff_param_set (fun q => q) c6Series c6Params h).2.2⟩

/-- C8: an empty (or missing/null) observation sequence makes the pipeline
return a series with empty observations, for every request; on non-empty
input every transform is a total function preserving the sequence length
(no abort), and the degenerate numeric cases degrade to an absent value at
the affected position only: log of an absent or non-positive value is
absent while a positive value stays present, and a percent change over a
zero previous value is absent. -/
theorem engine_error_handling :
    (∀ (logF : ℚ → ℚ) (data : FredSeries) (params : SeriesDataParams),
      data.observations = [] → (processTimeSeriesData logF data params).observations = []) ∧
    (∀ (logF : ℚ → ℚ) (observations : List Observation) (t : String),
      (applyTransformation logF observations t).length = observations.length) ∧
    (∀ (logF : ℚ → ℚ) (observations : List Observation) (i : Nat) (o : Observation),
      observations[i]? = some o → (o.value = none ∨ ∃ v, o.value = some v ∧ v ≤ 0) →
      (calculateLogTransform logF observations)[i]? = some { o with value := none }) ∧
    (∀ (logF : ℚ → ℚ) (observations : List Observation) (i : Nat) (o : Observation) (v : ℚ),
      observations[i]? = some o → o.value = some v → 0 < v →
      (calculateLogTransform logF observations)[i]? = some { o with value := some (logF v) }) ∧
    (∀ (observations : List Observation) (i : Nat) (o p : Observation),
      observations[i]? = some o → i ≠ 0 → observations[i - 1]? = some p →
      p.value = some 0 →
      (calculatePercentageChange observations)[i]? = some { o with value := none }) := by
  refine ⟨?_, length_applyTransformation, ?_, ?_, ?_⟩
  · intro logF data params h
    simp [processTimeSeriesData, h]
  · intro logF observations i o ho hv
    rcases hv with hv | ⟨v, hv, hvle⟩
    · simp [calculateLogTransform, ho, hv]
    · simp [calculateLogTransform, ho, hv, hvle]
  · intro logF observations i o v ho hv hvpos
    simp [calculateLogTransform, ho, hv, not_le.mpr hvpos]
  · intro observations i o p ho hi hp hp0
    simp [calculatePercentageChange, getElem?_mapWithIndex, ho, hi, valueAt, hp, hp0]

/-- Witness for C8: the empty series under a full request yields empty
observations; log is absent at an absent input and at `-1`, present at `4`;
percent change after a zero is absent. -/
theorem engine_error_handling_witness :
    c10Series.observations = [] ∧
    (processTimeSeriesData (fun q => q) c10Series c10Params).observations = [] ∧
    (calculateLogTransform (fun q => q) [mkObs 1 1 none])[0]? =
      some { (mkObs 1 1 none) with value := none } ∧
    (calculateLogTransform (fun q => q) [mkObs 1 1 (some (-1))])[0]? =
      some { (mkObs 1 1 (some (-1))) with value := none } ∧
    (calculateLogTransform (fun q => q) [mkObs 1 1 (some 4)])[0]? =
      some { (mkObs 1 1 (some 4)) with value := some 4 } ∧
    (calculatePercentageChange [mkObs 1 1 (some 0), mkObs 1 2 (some 5)])[1]? =
      some { (mkObs 1 2 (some 5)) with value := none } := by
  refine ⟨rfl, ?_, ?_, ?_, ?_, ?_⟩
  · exact engine_error_handling.1 (fun q => q) c10Series c10Params rfl
  · exact engine_error_handling.2.2.1 (fun q => q) _ 0 _ rfl (Or.inl rfl)
  · exact engine_error_handling.2.2.1 (fun q => q) _ 0 _ rfl
      (Or.inr ⟨-1, rfl, by norm_num⟩)
  · exact engine_error_handling.2.2.2.1 (fun q => q) _ 0 _ 4 rfl rfl (by norm_num)
  · exact engine_error_handling.2.2.2.2 _ 1 _ _ rfl (by decide) rfl rfl

/-- C1 counterexample: under `pct_change`, an absent input value at index 1
after a present non-zero value at index 0 produces the **present** number
`-100` (the absent current value is coerced to 0), refuting "if the input
value at i is absent then the output value at i is absent". -/
theorem absent_propagation_counterexample :
    c1Obs[1]? = some { date := mkDate 1 2, value := none, status := none } ∧
    (calculatePercentageChange c1Obs)[1]? =
      some { date := mkDate 1 2, value := some (-100), status := none } := by
  constructor
  · rfl
  · simp [calculatePercentageChange, mapWithIndex, valueAt, c1Obs, mkObs, mkDate]

/-- C1 as amended: `diff` and `log` propagate an absent input at i to an
absent output at i; but `pct_change` and `pct_change_yoy` coerce an absent
current value to 0, so whenever their reference value (previous / matched)
is present and non-zero they output the present number `-100` at an absent
input position. -/
theorem absent_propagation_amended :
    (∀ (observations : List Observation) (i : Nat) (o : Observation),
      observations[i]? = some o → o.value = none →
      (calculateDifference observations)[i]? = some { o with value := none }) ∧
    (∀ (logF : ℚ → ℚ) (observations : List Observation) (i : Nat) (o : Observation),
      observations[i]? = some o → o.value = none →
      (calculateLogTransform logF observations)[i]? = some { o with value := none }) ∧
    (∀ (observations : List Observation) (i : Nat) (o p : Observation) (pv : ℚ),
      observations[i]? = some o → o.value = none → i ≠ 0 →
      observations[i - 1]? = some p → p.value = some pv → pv ≠ 0 →
      (calculatePercentageChange observations)[i]? =
        some { o with value := some (-100) }) ∧
    (∀ (observations : List Observation) (i : Nat) (o : Observation) (d : YMD) (m : ℚ),
      observations[i]? = some o → o.value = none →
      dateMapLookup observations (mdKey (rollbackYear o.date)) = some (d, some m) →
      m ≠ 0 →
      (calculateYoYPercentageChange observations)[i]? =
        some { o with value := some (-100) }) := by
  refine ⟨?_, ?_, ?_, ?_⟩
  · intro observations i o ho hv
    rcases hprev : valueAt observations (i - 1) with _ | pv <;>
      simp [calculateDifference, getElem?_mapWithIndex, ho, hv, hprev]
  · intro logF observations i o ho hv
    simp [calculateLogTransform, ho, hv]
  · intro observations i o p pv ho hv hi hp hpv hpv0
    have harith : ((0 : ℚ) - pv) / pv * 100 = -100 := by
      rw [zero_sub, neg_div, div_self hpv0]
      norm_num
    simp [calculatePercentageChange, getElem?_mapWithIndex, ho, hv, hi, valueAt, hp, hpv,
      hpv0, harith]
  · intro observations i o d m ho hv hlook hm0
    have harith : ((0 : ℚ) - m) / m * 100 = -100 := by
      rw [zero_sub, neg_div, div_self hm0]
      norm_num
    simp [calculateYoYPercentageChange, ho, hv, hlook, hm0, harith]

/-- Witness for the amended C1 at concrete inputs: diff and log keep the
absent value absent; pct_change and pct_change_yoy turn it into `-100`. -/
theorem absent_propagation_amended_witness :
    (calculateDifference c1Obs)[1]? =
      some { date := mkDate 1 2, value := none, status := none } ∧
    (calculateLogTransform (fun q => q) c1Obs)[1]? =
      some { date := mkDate 1 2, value := none, status := none } ∧
    (calculatePercentageChange c1Obs)[1]? =
      some { date := mkDate 1 2, value := some (-100), status := none } ∧
    (calculateYoYPercentageChange c1YoyObs)[0]? =
      some { date := ⟨2023, 3, 15⟩, value := some (-100), status := none } := by
  refine ⟨?_, ?_, ?_, ?_⟩
  · exact absent_propagation_amended.1 c1Obs 1 _ rfl rfl
  · exact absent_propagation_amended.2.1 (fun q => q) c1Obs 1 _ rfl rfl
  · exact absent_propagation_amended.2.2.1 c1Obs 1 _ _ 1 rfl rfl (by decide) rfl rfl
      one_ne_zero
  · exact absent_propagation_amended.2.2.2 c1YoyObs 0 _ ⟨2024, 3, 15⟩ 4 rfl rfl
      (by simp [c1YoyObs, dateMapLookup, rollbackYear, isLeapYear, mdKey]) (by norm_num)

/-- C2: `pct_change_yoy` maps each observation to a result determined by a
one-time index of the whole series keyed by `(month, day)` in which later
entries overwrite earlier ones: the matched observation is the **last**
observation of the series whose `(month, day)` equals that of the date one
calendar year earlier (`rollbackYear`, same month/day except the JS Feb-29
rollover); if there is no match, or the matched value is absent or zero,
the result is absent, otherwise `((current ?? 0) - matched) / matched * 100`
at the observation's own date. -/
theorem yoy_lookup_characterization (observations : List Observation) :
    calculateYoYPercentageChange observations =
      observations.map (fun obs =>
        match (observations.filter
            (fun o => decide (mdKey (rollbackYear obs.date) = mdKey o.date))).getLast? with
        | none => { obs with value := none }
        | some matched =>
          match matched.value with
          | none => { obs with value := none }
          | some m =>
            if m = 0 then { obs with value := none }
            else { obs with value := some ((obs.value.getD 0 - m) / m * 100) }) := by
  unfold calculateYoYPercentageChange
  refine List.map_congr_left (fun obs _ => ?_)
  dsimp only
  rw [dateMapLookup_eq_getLast]
  cases hl : (observations.filter
      (fun o => decide (mdKey (rollbackYear obs.date) = mdKey o.date))).getLast? with
  | none => simp
  | some matched => cases hv : matched.value <;> simp [hv]

/-- C3: on non-empty input the pipeline's observations are exactly the
fixed composition resample → unit-convert → point-transform → date-range
filter → limit, each stage consuming the previous stage's output and each
skipped when its request parameter is absent (limit also when not
positive); consequently, under a date-range-plus-limit request the result
is the last n observations of the filtered window (this half holds for
every input, empty or not). -/
theorem pipeline_stage_order_and_limit_after_filter :
    (∀ (logF : ℚ → ℚ) (data : FredSeries) (params : SeriesDataParams),
      data.observations ≠ [] →
      (processTimeSeriesData logF data params).observations =
        limitStage params.limit
          (filterStage params.start_date params.end_date
            (transformStage logF params.transformation
              (unitsStage data.units params.units
                (freqStage data.frequency_short params.frequency data.observations))))) ∧
    (∀ (logF : ℚ → ℚ) (data : FredSeries) (s e : Option YMD) (n : Int), 0 < n →
      (processTimeSeriesData logF data
          { start_date := s, end_date := e, limit := some n }).observations =
        jsSliceLast (filterByDateRange data.observations s e) n.toNat) := by
  constructor
  · intro logF data params h
    simp [processTimeSeriesData, h, freqStage, unitsStage, transformStage,
      filterStage, limitStage]
  · intro logF data s e n hn
    by_cases h : data.observations = []
    · simp [processTimeSeriesData, h, filterByDateRange, jsSliceLast]
    · rcases s with _ | s <;> rcases e with _ | e <;>
        simp [processTimeSeriesData, h, hn, filterByDateRange, jsSliceLast]

/-- Witness for C3 at the four-point fixture: filtering to the window
Jan 1 - Jan 3 and limiting to 2 yields the last 2 of the 3 filtered points,
which differs from the last 2 of the original series. -/
theorem pipeline_stage_order_and_limit_after_filter_witness :
    c3Series.observations ≠ [] ∧ (0 : Int) < 2 ∧
    (processTimeSeriesData (fun q => q) c3Series
        { transformation := some "diff" }).observations =
      limitStage none
        (filterStage none none
          (transformStage (fun q => q) (some "diff")
            (unitsStage c3Series.units none
              (freqStage c3Series.frequency_short none c3Series.observations)))) ∧
    (processTimeSeriesData (fun q => q) c3Series
        { start_date := some (mkDate 1 1), end_date := some (mkDate 1 3),
          limit := some 2 }).observations =
      jsSliceLast (filterByDateRange c3Obs (some (mkDate 1 1)) (some (mkDate 1 3)))
        ((2 : Int)).toNat ∧
    jsSliceLast (filterByDateRange c3Obs (some (mkDate 1 1)) (some (mkDate 1 3)))
        ((2 : Int)).toNat ≠ jsSliceLast c3Obs ((2 : Int)).toNat := by
  refine ⟨by simp [c3Series, c3Obs], by norm_num, ?_, ?_, ?_⟩
  · exact pipeline_stage_order_and_limit_after_filter.1 (fun q => q) c3Series
      { transformation := some "diff" } (by simp [c3Series, c3Obs])
  · exact pipeline_stage_order_and_limit_after_filter.2 (fun q => q) c3Series
      (some (mkDate 1 1)) (some (mkDate 1 3)) 2 (by norm_num)
  · simp [c3Obs, mkObs, mkDate, filterByDateRange, jsSliceLast, dateKey]

theorem window_desc_eq_reverse (observations : List Observation) (p i : Nat)
    (h : p - 1 ≤ i) :
    (List.range p).map (fun j => valueAt observations (i - j)) =
      ((List.range p).map (fun k => valueAt observations (i + 1 - p + k))).reverse := by
  apply List.ext_getElem
  · simp
  · intro j hj1 hj2
    rw [List.getElem_reverse]
    simp only [List.getElem_map, List.getElem_range, List.length_map, List.length_range]
    simp only [List.length_map, List.length_range] at hj1
    congr 1
    omega

theorem windowValues_perm_movingAvgWindow (observations : List Observation) (p i : Nat)
    (h : p - 1 ≤ i) :
    (windowValues observations i p).Perm (movingAvgWindow observations p i) := by
  unfold windowValues movingAvgWindow
  rw [window_desc_eq_reverse observations p i h]
  exact List.Perm.filterMap id (List.reverse_perm _)

/-- C4: the named moving-average transformation kinds dispatch to trailing
windows of size 3 (moving_avg, 3_period_moving_avg), 6, 12 and 4; for every
window size `p`, `out[i]` is absent when `i < p-1` and otherwise the mean of
the present values among `in[i-p+1..i]` (absent when none are present); and
the 3-period average of `[1, absent, 3, 4]` at index 2 is `2`. -/
theorem moving_average_characterization :
    (∀ (logF : ℚ → ℚ) (observations : List Observation),
      applyTransformation logF observations "moving_avg" =
          calculateMovingAverage observations 3 ∧
      applyTransformation logF observations "3_period_moving_avg" =
          calculateMovingAverage observations 3 ∧
      applyTransformation logF observations "6_period_moving_avg" =
          calculateMovingAverage observations 6 ∧
      applyTransformation logF observations "12_period_moving_avg" =
          calculateMovingAverage observations 12 ∧
      applyTransformation logF observations "4_week_moving_avg" =
          calculateMovingAverage observations 4) ∧
    (∀ (observations : List Observation) (p : Nat),
      calculateMovingAverage observations p =
        mapWithIndex (fun i o => { o with value := movingAvgSpecValue observations p i })
          observations) ∧
    (calculateMovingAverage c4Obs 3)[2]? =
      some { date := mkDate 1 3, value := some 2, status := none } := by
  refine ⟨fun logF observations => ⟨rfl, rfl, rfl, rfl, rfl⟩, fun observations p => ?_, ?_⟩
  · unfold calculateMovingAverage
    apply List.ext_getElem?
    intro i
    rw [getElem?_mapWithIndex, getElem?_mapWithIndex]
    cases ho : observations[i]? with
    | none => rfl
    | some o =>
      simp only [Option.map_some]
      by_cases hip : i < p - 1
      · simp [movingAvgSpecValue, hip]
      · have hle : p - 1 ≤ i := Nat.le_of_not_lt hip
        have hperm := windowValues_perm_movingAvgWindow observations p i hle
        have hlen := hperm.length_eq
        have hsum := hperm.sum_eq
        by_cases hw : movingAvgWindow observations p i = []
        · have hw2 : windowValues observations i p = [] := by
            rw [← List.length_eq_zero] at hw ⊢
            rw [hlen, hw]
          simp [movingAvgSpecValue, hip, hw, hw2]
        · have hw2 : windowValues observations i p ≠ [] := by
            intro hnil
            rw [← List.length_eq_zero, ← hlen, hnil] at hw
            exact hw rfl
          simp [movingAvgSpecValue, hip, hw, hw2, hsum, hlen]
  · simp [calculateMovingAverage, mapWithIndex, windowValues, valueAt, c4Obs, mkObs,
      mkDate, List.range_succ]
    norm_num

theorem insertGrouped_of_not_mem {κ : Type} [DecidableEq κ]
    (G : List (κ × List Observation)) (k : κ) (a : Observation)
    (h : k ∉ G.map Prod.fst) :
    insertGrouped G k a = G ++ [(k, [a])] := by
  induction G with
  | nil => rfl
  | cons g rest ih =>
    obtain ⟨k1, l⟩ := g
    simp only [List.map_cons, List.mem_cons] at h
    push_neg at h
    simp [insertGrouped, h.1, ih h.2]

theorem insertGrouped_of_mem {κ : Type} [DecidableEq κ]
    (G : List (κ × List Observation)) (k : κ) (a : Observation)
    (hnd : (G.map Prod.fst).Nodup) (h : k ∈ G.map Prod.fst) :
    insertGrouped G k a =
      G.map (fun g => if g.1 = k then (g.1, g.2 ++ [a]) else g) := by
  induction G with
  | nil => simp at h
  | cons g rest ih =>
    obtain ⟨k1, l⟩ := g
    simp only [List.map_cons, List.nodup_cons] at hnd
    by_cases hk : k = k1
    · subst hk
      have hrest : ∀ g ∈ rest, (if g.1 = k then (g.1, g.2 ++ [a]) else g) = g := by
        intro g hg
        rw [if_neg]
        intro he
        exact hnd.1 (he ▸ List.mem_map_of_mem Prod.fst hg)
      have hmap : rest.map (fun g => if g.1 = k then (g.1, g.2 ++ [a]) else g) = rest :=
        (List.map_congr_left hrest).trans (List.map_id rest)
      simp [insertGrouped, hmap]
    · have hmem : k ∈ rest.map Prod.fst := by
        rcases List.mem_cons.mp h with h1 | h1
        · exact absurd h1 hk
        · exact h1
      simp [insertGrouped, hk, Ne.symm hk, ih hnd.2 hmem]

theorem groupByKey_snoc {κ : Type} [DecidableEq κ] (key : Observation → κ)
    (l : List Observation) (a : Observation) :
    groupByKey key (l ++ [a]) = insertGrouped (groupByKey key l) (key a) a := by
  simp [groupByKey, List.foldl_append]

/-- The grouping pass is an insertion-ordered partition: bucket keys are
distinct, every input observation's key has a bucket, and the bucket for key
`k` holds exactly the input observations with key `k`, in input order. -/
theorem groupByKey_invariant {κ : Type} [DecidableEq κ] (key : Observation → κ)
    (l : List Observation) :
    ((groupByKey key l).map Prod.fst).Nodup ∧
    (∀ o ∈ l, key o ∈ (groupByKey key l).map Prod.fst) ∧
    (∀ g ∈ groupByKey key l, g.2 = l.filter (fun o => decide (key o = g.1))) := by
  induction l using List.reverseRecOn with
  | nil => simp [groupByKey]
  | append_singleton l a ih =>
    obtain ⟨ihnd, ihmem, ihfil⟩ := ih
    rw [groupByKey_snoc]
    by_cases hk : key a ∈ (groupByKey key l).map Prod.fst
    · rw [insertGrouped_of_mem _ _ _ ihnd hk]
      have hkeys : (((groupByKey key l).map
          (fun g => if g.1 = key a then (g.1, g.2 ++ [a]) else g)).map Prod.fst) =
          (groupByKey key l).map Prod.fst := by
        rw [List.map_map]
        apply List.map_congr_left
        intro g _
        by_cases hgk : g.1 = key a <;> simp [hgk]
      refine ⟨?_, ?_, ?_⟩
      · rw [hkeys]; exact ihnd
      · intro o ho
        rw [hkeys]
        rcases List.mem_append.mp ho with ho | ho
        · exact ihmem o ho
        · rw [List.mem_singleton.mp ho]; exact hk
      · intro g hg
        obtain ⟨g0, hg0, rfl⟩ := List.mem_map.mp hg
        by_cases hgk : g0.1 = key a
        · simp only [hgk, if_pos]
          simp only [List.filter_append]
          have hfil2 : g0.2 = l.filter (fun o => decide (key o = key a)) := by
            rw [ihfil g0 hg0, hgk]
          rw [← hfil2]
          simp
        · simp only [if_neg hgk]
          simp only [List.filter_append]
          rw [← ihfil g0 hg0]
          have : decide (key a = g0.1) = false := by
            simp
            intro he
            exact hgk he.symm
          simp [this]
    · rw [insertGrouped_of_not_mem _ _ _ hk]
      have hkeys : ((groupByKey key l ++ [(key a, [a])]).map Prod.fst) =
          (groupByKey key l).map Prod.fst ++ [key a] := by
        simp
      refine ⟨?_, ?_, ?_⟩
      · rw [hkeys]
        simp [List.nodup_append, ihnd, hk]
      · intro o ho
        rw [hkeys]
        rcases List.mem_append.mp ho with ho | ho
        · exact List.mem_append_left _ (ihmem o ho)
        · rw [List.mem_singleton.mp ho]
          exact List.mem_append_right _ (List.mem_singleton.mpr rfl)
      · intro g hg
        rcases List.mem_append.mp hg with hg | hg
        · have hne : key a ≠ g.1 := by
            intro he
            exact hk (he ▸ List.mem_map_of_mem Prod.fst hg)
          simp only [List.filter_append]
          rw [← ihfil g hg]
          have : decide (key a = g.1) = false := by simp [hne]
          simp [this]
        · rw [List.mem_singleton.mp hg]
          have hnil : l.filter (fun o => decide (key o = key a)) = [] := by
            rw [List.filter_eq_nil_iff]
            intro o ho
            simp only [decide_eq_true_eq]
            intro he
            exact hk (he ▸ ihmem o ho)
          simp [List.filter_append, hnil]

theorem bucket_sorted {κ : Type} [DecidableEq κ] (key : Observation → κ)
    (l : List Observation) (h : l.Pairwise obsDateLt) :
    ∀ g ∈ groupByKey key l, List.Sorted obsDateLe g.2 := by
  intro g hg
  rw [(groupByKey_invariant key l).2.2 g hg]
  exact (List.Pairwise.sublist (List.filter_sublist l) h).imp (fun hlt => Nat.le_of_lt hlt)

theorem reduceBucket_last_sorted (bucket : List Observation)
    (h : List.Sorted obsDateLe bucket) :
    reduceBucket .last bucket = lastOfBucket bucket := by
  simp [reduceBucket, lastOfBucket, sortByDate, h.insertionSort_eq]

/-- C5: under the series invariant that input observations are strictly
ascending by date, daily→monthly resampling with method 'last' is exactly:
partition into `(year, month)` buckets, reduce each bucket to its
chronologically last observation's value and own date (`monthlyLastSpec`,
whose bucket-final element is the chronological maximum because buckets
preserve the ascending input order), and sort the representatives ascending
by date; in particular the output is sorted and is a permutation of the
per-bucket representatives. -/
theorem resample_daily_to_monthly_last (observations : List Observation)
    (h : observations.Pairwise obsDateLt) :
    aggregateToMonthly observations .last =
        List.insertionSort obsDateLe (monthlyLastSpec observations) ∧
    (aggregateToMonthly observations .last).Perm (monthlyLastSpec observations) ∧
    List.Sorted obsDateLe (aggregateToMonthly observations .last) := by
  have hmap : (groupByKey (fun o => ymKey o.date) observations).map
      (fun g => reduceBucket .last g.2) = monthlyLastSpec observations := by
    unfold monthlyLastSpec
    apply List.map_congr_left
    intro g hg
    exact reduceBucket_last_sorted g.2 (bucket_sorted _ observations h g hg)
  have heq : aggregateToMonthly observations .last =
      List.insertionSort obsDateLe (monthlyLastSpec observations) := by
    unfold aggregateToMonthly aggregateGroupedData sortByDate
    rw [hmap]
  refine ⟨heq, ?_, ?_⟩
  · rw [heq]; exact List.perm_insertionSort _ _
  · rw [heq]; exact List.sorted_insertionSort _ _

/-- Witness for C5 at the spec's fixture: `[{2023-01-05,1},{2023-01-20,2},
{2023-02-10,3}]` resampled day→month with 'last' gives
`[{2023-01-20,2},{2023-02-10,3}]`. -/
theorem resample_daily_to_monthly_last_witness :
    c5Obs.Pairwise obsDateLt ∧
    aggregateToMonthly c5Obs .last =
      List.insertionSort obsDateLe (monthlyLastSpec c5Obs) ∧
    aggregateToMonthly c5Obs .last =
      [{ date := mkDate 1 20, value := some 2, status := none },
       { date := mkDate 2 10, value := some 3, status := none }] := by
  have hp : c5Obs.Pairwise obsDateLt := by
    simp [c5Obs, mkObs, mkDate, obsDateLt, dateKey]
  refine ⟨hp, (resample_daily_to_monthly_last c5Obs hp).1, ?_⟩
  simp [aggregateToMonthly, aggregateGroupedData, groupByKey, insertGrouped, reduceBucket,
    sortByDate, List.insertionSort, List.orderedInsert, obsDateLe, dateKey, ymKey, c5Obs,
    mkObs, mkDate, defaultObs]

end FinanceMonitor
